import Mathlib

/-!
Shallow embedding of the Parsons SQLite connector
(`parsons/databases/sqlite/sqlite.py` and
`parsons/databases/sqlite/sqlite_create_table.py`).

Pure string manipulation (statement splitting, SQL rendering) is translated
directly.  Stateful interaction with the `sqlite3` driver is modelled by
explicit event traces: each database call is a pure function that returns
the list of driver-level events it performs together with its return value.
The catalog of existing tables (`sqlite_master`) is passed in as an explicit
value, and the response of the DB-API cursor to a statement is passed in as
a function from statements to results, so that every definition stays
executable.
-/

namespace Parsons

/-! ### Python string primitives

`str.split(sep)` and `str.strip()` are modelled on `List Char`, matching
Python semantics for a one-character separator: `"a;".split(";")` is
`["a", ""]`, `"".split(";")` is `[""]`. -/

/-- Python `s.split(sep)` for a single-character separator, on char lists. -/
def pySplitChar (sep : Char) : List Char → List (List Char)
  | [] => [[]]
  | c :: rest =>
    if c = sep then [] :: pySplitChar sep rest
    else
      match pySplitChar sep rest with
      | [] => [[c]]
      | h :: t => (c :: h) :: t

/-- Python `s.strip()`: drop whitespace from both ends. -/
def pyStripChars (l : List Char) : List Char :=
  ((l.dropWhile Char.isWhitespace).reverse.dropWhile Char.isWhitespace).reverse

/-- Python `sep.join(parts)`. -/
def pyJoin (sep : String) : List String → String
  | [] => ""
  | [x] => x
  | x :: xs => x ++ sep ++ pyJoin sep xs

/-- The ASCII apostrophe as a one-character string (used in rendered SQL). -/
def squote : String := String.mk [Char.ofNat 39]

/-! ### Values

A SQL-storable Python value, with the two renderings the connector uses:
`pyStr` is the f-string rendering `f"{v}"`, `pyRepr` is `repr(v)` as used
inside `str(tuple)`.  (Escaping of quotes inside text values is not
performed by the source either; text repr is modelled as plain quoting.) -/

inductive Value where
  | vint (n : Int)
  | vtext (s : String)
  | vnull
deriving DecidableEq

/-- Python `str(v)` / f-string rendering of a value (`None` renders as `None`). -/
def Value.pyStr : Value → String
  | .vint n => toString n
  | .vtext s => s
  | .vnull => "None"

/-- Python `repr(v)` rendering of a value, as used by `str` of a tuple. -/
def Value.pyRepr : Value → String
  | .vint n => toString n
  | .vtext s => squote ++ s ++ squote
  | .vnull => "None"

/-- Python `str(row)` for a row tuple (one-element tuples get a trailing comma). -/
def pyTupleStr (row : List Value) : String :=
  match row with
  | [x] => "(" ++ x.pyRepr ++ ",)"
  | _ => "(" ++ pyJoin ", " (row.map Value.pyRepr) ++ ")"

/-! ### The Parsons table collaborator

Modelled from the spec: the tabular container consumed by the connector
(`parsons.Table`) exposes `columns`, `num_rows`, per-column data, row
chunking into fixed-size row chunks, and `first`.  Its own implementation
lives outside this module. -/

structure PTable where
  columns : List String
  rows : List (List Value)
deriving DecidableEq

/-- Fuel-indexed worker for `chunkList`; the fuel only bounds the recursion
depth (each step consumes at least one row when `0 < c`), so any fuel at
least the length of the list gives the same result. -/
def chunkFuel (c : Nat) : Nat → List α → List (List α)
  | _, [] => []
  | 0, _ :: _ => []
  | f + 1, x :: xs => ((x :: xs).take c) :: chunkFuel c f ((x :: xs).drop c)

/-- Modelled from the spec: `Table.chunk(c)` splits the rows into
consecutive fixed-size chunks of `c` rows (the last chunk may be short). -/
def chunkList (c : Nat) (l : List α) : List (List α) :=
  if c = 0 then [] else chunkFuel c l.length l

/-- Modelled from the spec: `Table.column_data(col)` returns the values of
the named column (first matching header position). -/
def columnDataByName (tbl : PTable) (col : String) : List Value :=
  match tbl.columns.findIdx? (fun c => c == col) with
  | some i => tbl.rows.map (fun r => r.getD i Value.vnull)
  | none => []

/-! ### Statement splitting

`query_with_connection` splits `sql.strip()` on `;` and executes the
fragments whose length is nonzero. -/

/-- The statement fragments `query_with_connection` actually executes:
`sql.strip().split(";")` with zero-length fragments skipped. -/
def splitStatements (sql : String) : List String :=
  ((pySplitChar (Char.ofNat 59) (pyStripChars sql.data)).map String.mk).filter
    (fun s => s.length != 0)

/-! ### Cursor semantics

A statement handed to `cursor.execute` yields a DB-API result: an optional
`description` (the result columns; `none` for statements that return no
result set, e.g. `INSERT`/`CREATE`/`DROP`; for a `SELECT` the description is
present even when zero data rows follow) and the data rows available to
`fetchmany`. -/

structure StmtResult where
  description : Option (List String)
  rows : List (List Value)

/-- The cursor state after the loop in `query_with_connection`: the
description and rows belong to the last executed statement; a cursor that
executed nothing has description `none`. -/
def lastStmtResult (sem : String → StmtResult) (sql : String) : StmtResult :=
  match (splitStatements sql).getLast? with
  | none => { description := none, rows := [] }
  | some last => sem last

/-- Driver-level events performed by `query_with_connection`. -/
inductive QEvent where
  | execute (s : String)
  | commit
  | createSpill
  | writeHeader (cols : List String)
  | writeRow (r : List Value)
  | closeCursor
deriving DecidableEq

/-- The spill-file-backed lazy table returned for row-producing queries:
first the header record, then one record per data row. -/
structure SpillTable where
  header : List String
  dataRows : List (List Value)
deriving DecidableEq

/-- Parsons `Table.first` on the lazy result: the first value of the first
data row, `none` when there are no data rows. -/
def SpillTable.first (t : SpillTable) : Option Value :=
  match t.dataRows with
  | [] => none
  | r :: _ => r.head?

/-- Embedding of `SQLite.query_with_connection(sql, connection, parameters, commit)`.
Splits the sql on `;`, executes every nonzero-length fragment in order and
calls `connection.commit()` after each one (the source calls it
unconditionally; the `commit` argument is never consulted, and the
`parameters` argument is accepted but never bound).  If the cursor ends
with no description, returns `none`; otherwise pickles the header and all
fetched rows to a fresh spill file and returns the lazy table over it. -/
def query_with_connection (sem : String → StmtResult) (sql : String)
    (_parameters : Option (List Value)) (_commit : Bool) :
    List QEvent × Option SpillTable :=
  let stmts := splitStatements sql
  let execEvents := stmts.flatMap (fun s => [QEvent.execute s, QEvent.commit])
  let res := lastStmtResult sem sql
  match res.description with
  | none => (execEvents ++ [QEvent.closeCursor], none)
  | some cols =>
      (execEvents ++ [QEvent.createSpill, QEvent.writeHeader cols]
         ++ res.rows.map QEvent.writeRow ++ [QEvent.closeCursor],
       some { header := cols, dataRows := res.rows })

/-! ### The scoped connection resource

`SQLite.connection()` is a generator-based context manager:
`connect`; `yield`; `except sqlite3.Error: rollback()`; `finally: close()`.
Because the `except` clause does not re-raise, a database error thrown into
the generator is suppressed (the `with` block exits normally); any other
exception propagates. -/

inductive BodyOutcome where
  | ok
  | dbError
  | otherError
deriving DecidableEq

inductive ConnEvent where
  | connect
  | rollback
  | closeConn
deriving DecidableEq

inductive ScopeExit where
  | normal
  | raisedDb
  | raisedOther
deriving DecidableEq

/-- The events performed by the `SQLite.connection()` scope and how the
scope exits, as a function of what the body does. -/
def connectionScope (body : BodyOutcome) : List ConnEvent × ScopeExit :=
  match body with
  | .ok => ([.connect, .closeConn], .normal)
  | .dbError => ([.connect, .rollback, .closeConn], .normal)
  | .otherError => ([.connect, .closeConn], .raisedOther)

/-! ### The system catalog and `table_exists` -/

/-- A row of `sqlite_master` (`rowType` models the `type` column). -/
structure MasterRow where
  name : String
  rowType : String
deriving DecidableEq

/-- Fuel-indexed worker for the `LIKE` matcher.  Every recursive call
strictly decreases the combined length of pattern and string, so fuel
exceeding that combined length never runs out. -/
def likeFuel : Nat → List Char → List Char → Bool
  | 0, _, _ => false
  | _ + 1, [], [] => true
  | _ + 1, [], _ :: _ => false
  | f + 1, '%' :: ps, [] => likeFuel f ps []
  | f + 1, '%' :: ps, c :: cs => likeFuel f ps (c :: cs) || likeFuel f ('%' :: ps) cs
  | _ + 1, '_' :: _, [] => false
  | f + 1, '_' :: ps, _ :: cs => likeFuel f ps cs
  | f + 1, p :: ps, c :: cs => (p.toLower == c.toLower) && likeFuel f ps cs
  | _ + 1, _ :: _, [] => false

/-- SQLite `LIKE`: `%` matches any sequence, `_` any single character,
plain characters match ASCII-case-insensitively (SQLite default). -/
def likeMatch (pat str : List Char) : Bool :=
  likeFuel (pat.length + str.length + 1) pat str

/-- Evaluation of `value LIKE pattern` on strings. -/
def sqliteLike (pattern value : String) : Bool :=
  likeMatch pattern.data value.data

/-- The sql text of the catalog lookup issued by `table_exists`. -/
def existsQuerySql (table_name : String) : String :=
  "SELECT name FROM sqlite_master WHERE type=" ++ squote ++ "table" ++ squote
    ++ " AND name LIKE " ++ squote ++ table_name ++ squote

/-- The rows of `sqlite_master` matched by the catalog lookup: rows whose
`type` is `table` and whose `name` matches the given name as a
case-insensitive `LIKE` pattern, in catalog order. -/
def masterLookup (cat : List MasterRow) (table_name : String) : List String :=
  (cat.filter (fun r => r.rowType == "table" && sqliteLike table_name r.name)).map
    (fun r => r.name)

/-- The cursor semantics of the catalog lookup statement: one `name` result
column and one row per matched catalog row. -/
def masterSem (cat : List MasterRow) (table_name : String) : StmtResult :=
  { description := some ["name"],
    rows := (masterLookup cat table_name).map (fun n => [Value.vtext n]) }

/-- Embedding of `SQLite.table_exists(table_name)`: runs the catalog lookup through
`query` and compares `.first` of the resulting lazy table with
`table_name` (Python `==`; `None == name` is `False`). -/
def table_exists (cat : List MasterRow) (table_name : String) : Bool :=
  match (query_with_connection (fun _ => masterSem cat table_name)
      (existsQuerySql table_name) none true).2 with
  | some t =>
      match t.first with
      | some (Value.vtext n) => n == table_name
      | _ => false
  | none => false

/-! ### `_create_table_precheck` and `copy`

Traced at the level of connections: connection `0` is the one `copy` opens
for the whole operation, connection `1` is the one `table_exists` opens
internally through `self.query`. -/

inductive CEvent where
  | openConn (cid : Nat)
  | exec (cid : Nat) (s : String)
  | commit (cid : Nat)
  | rollback (cid : Nat)
  | closeConn (cid : Nat)
deriving DecidableEq

/-- Execute-then-commit event pairs for a list of statement fragments. -/
def pairTrace (frags : List (Nat × String)) : List CEvent :=
  frags.flatMap (fun p => [CEvent.exec p.1 p.2, CEvent.commit p.1])

/-- The events `query_with_connection` performs on connection `cid` for one
sql string: each nonzero-length fragment is executed and then committed. -/
def fragTrace (cid : Nat) (sql : String) : List CEvent :=
  pairTrace ((splitStatements sql).map (fun s => (cid, s)))

/-- Python truthiness of the precheck return value (`True` or implicit `None`). -/
def optionTruthy : Option Bool → Bool
  | some b => b
  | none => false

structure PrecheckRun where
  events : List CEvent
  issued : List (Nat × String)
  result : Except String (Option Bool)

/-- Embedding of the precheck `_create_table_precheck(connection, table_name, if_exists)`.
Validates `if_exists` before any query; then consults `table_exists`
(which opens its own connection `1`); on `drop`-and-exists issues
`DROP TABLE` on the caller connection `0` and returns `True`; on
`append`-and-exists falls through and returns `None`; on a missing table
returns `True`. -/
def _create_table_precheck (cat : List MasterRow) (table_name if_exists : String) :
    PrecheckRun :=
  if ¬ (if_exists = "fail" ∨ if_exists = "append" ∨ if_exists = "drop") then
    { events := [], issued := [],
      result := .error "Invalid value for if_exists argument" }
  else
    let esql := existsQuerySql table_name
    let existsEvents := [CEvent.openConn 1] ++ fragTrace 1 esql ++ [CEvent.closeConn 1]
    let dropSql := "DROP TABLE " ++ table_name
    if table_exists cat table_name then
      if if_exists = "fail" then
        { events := existsEvents, issued := [(1, esql)],
          result := .error "Table already exists." }
      else if if_exists = "drop" then
        { events := existsEvents ++ fragTrace 0 dropSql,
          issued := [(1, esql), (0, dropSql)],
          result := .ok (some true) }
      else
        { events := existsEvents, issued := [(1, esql)], result := .ok none }
    else
      { events := existsEvents, issued := [(1, esql)], result := .ok (some true) }

/-! ### The create-table statement builder (`sqlite_create_table.py`)

The type-widening function (`detect_data_type`) and the column-name
sanitizer (`format_columns`) are inherited from the shared
`DatabaseCreateStatement` collaborator outside this module, so they are
taken as parameters (`dt`, `fc`). -/

/-- Embedding of `evaluate_column`: fold the widening function over the column values,
starting from `None`. -/
def evaluate_column (dt : Value → Option String → Option String)
    (column_rows : List Value) : Option String :=
  column_rows.foldl (fun colType row => dt row colType) none

/-- Embedding of `evaluate_table`: the ordered (name, inferred type) map of the table. -/
def evaluate_table (dt : Value → Option String → Option String) (tbl : PTable) :
    List (String × Option String) :=
  tbl.columns.map (fun col => (col, evaluate_column dt (columnDataByName tbl col)))

/-- Python f-string rendering of an optional type (`None` renders as `None`). -/
def pyOptStr : Option String → String
  | some s => s
  | none => "None"

/-- Embedding of `create_statement(tbl, table_name)`: sets the (sanitized) header on the
input table in place, then renders the `CREATE TABLE` statement; returns
the statement together with the mutated table. -/
def create_statement (fc : List String → List String)
    (dt : Value → Option String → Option String) (tbl : PTable)
    (table_name : String) : String × PTable :=
  let tbl' : PTable := { tbl with columns := fc tbl.columns }
  let tableMap := evaluate_table dt tbl'
  let columnSyntax := tableMap.map (fun c => c.1 ++ " " ++ pyOptStr c.2 ++ " \n")
  ("CREATE TABLE " ++ table_name ++ " ( \n " ++ pyJoin "," columnSyntax ++ ");", tbl')

/-- The exact whitespace between the parts of the `_insert_statement`
f-string (a newline plus the literal indentation of the source lines). -/
def insertIndent : String := "\n                  "

/-- The `values` list built by `_insert_statement`: single-column tables
render each value unwrapped inside parentheses via `f"({row[0]})"`,
other tables render `str(row)` for each row tuple. -/
def insertValues (tbl : PTable) : List String :=
  if tbl.columns.length = 1 then
    tbl.rows.map (fun row => "(" ++ (row.getD 0 Value.vnull).pyStr ++ ")")
  else
    tbl.rows.map pyTupleStr

/-- Embedding of `SQLite._insert_statement(tbl, table_name)`. -/
def _insert_statement (tbl : PTable) (table_name : String) : String :=
  "INSERT INTO " ++ table_name
    ++ insertIndent ++ "(" ++ pyJoin "," tbl.columns ++ ")"
    ++ insertIndent ++ "VALUES " ++ pyJoin "," (insertValues tbl) ++ ";"

structure CopyRun where
  events : List CEvent
  issued : List (Nat × String)
  inserts : List String
  result : Except String Unit

/-- Embedding of `SQLite.copy(tbl, table_name, if_exists, chunk_size)`.
Empty input: log and return immediately, opening nothing.  Otherwise open
connection `0` for the whole operation, run the precheck (whose
`ValueError`s propagate out of the connection scope, which closes the
handle), create the table when the precheck is truthy, then execute one
`_insert_statement` per row chunk, all through connection `0`.
`issued` records every sql string passed to `query_with_connection`
(tagged with its connection), `inserts` the insert statements built for
the chunks. -/
def copy (fc : List String → List String)
    (dt : Value → Option String → Option String) (cat : List MasterRow)
    (tbl : PTable) (table_name if_exists : String) (chunk_size : Nat) : CopyRun :=
  if tbl.rows.length = 0 then
    { events := [], issued := [], inserts := [], result := .ok () }
  else
    match (_create_table_precheck cat table_name if_exists).result with
    | .error e =>
        { events := [CEvent.openConn 0]
            ++ (_create_table_precheck cat table_name if_exists).events
            ++ [CEvent.closeConn 0],
          issued := (_create_table_precheck cat table_name if_exists).issued,
          inserts := [], result := .error e }
    | .ok signal =>
        let created :=
          if optionTruthy signal then
            ((create_statement fc dt tbl table_name).1,
             (create_statement fc dt tbl table_name).2)
          else ("", tbl)
        let createdSqls := if optionTruthy signal then [created.1] else []
        let insertSqls := (chunkList chunk_size created.2.rows).map (fun ch =>
          _insert_statement { columns := created.2.columns, rows := ch } table_name)
        { events := [CEvent.openConn 0]
            ++ (_create_table_precheck cat table_name if_exists).events
            ++ createdSqls.flatMap (fragTrace 0) ++ insertSqls.flatMap (fragTrace 0)
            ++ [CEvent.closeConn 0],
          issued := (_create_table_precheck cat table_name if_exists).issued
            ++ createdSqls.map (fun s => (0, s))
            ++ insertSqls.map (fun s => (0, s)),
          inserts := insertSqls,
          result := .ok () }

/-! ### Commit bookkeeping for the atomicity analysis -/

/-- Statement bookkeeping per event: first component is the per-connection
pending (uncommitted) statements, second the committed ones.  `commit`
moves the pending statements of that connection to committed; `rollback`
and `closeConn` discard them. -/
def applyCEvent (st : List (Nat × String) × List (Nat × String)) (e : CEvent) :
    List (Nat × String) × List (Nat × String) :=
  match e with
  | .exec cid s => (st.1 ++ [(cid, s)], st.2)
  | .commit cid =>
      (st.1.filter (fun p => p.1 != cid), st.2 ++ st.1.filter (fun p => p.1 == cid))
  | .rollback cid => (st.1.filter (fun p => p.1 != cid), st.2)
  | .closeConn cid => (st.1.filter (fun p => p.1 != cid), st.2)
  | .openConn _ => st

/-- The statements durably committed after a trace. -/
def committedOf (evts : List CEvent) : List (Nat × String) :=
  (evts.foldl applyCEvent ([], [])).2

/-- The fragment-level statements of the sql strings passed to
`query_with_connection`, in execution order. -/
def issuedFrags (issued : List (Nat × String)) : List (Nat × String) :=
  issued.flatMap (fun p => (splitStatements p.2).map (fun s => (p.1, s)))

/-- The trace of a `copy` run in which executing the fragment after the
first `k` fragments raises `sqlite3.Error`: the first `k` fragments were
each executed and committed, the failing execute happens, and the
connection scope rolls back connection `0` and closes it. -/
def failTrace (frags : List (Nat × String)) (k : Nat) : List CEvent :=
  [CEvent.openConn 0] ++ pairTrace (frags.take k)
    ++ (match frags.get? k with
        | some p => [CEvent.exec p.1 p.2]
        | none => [])
    ++ [CEvent.rollback 0, CEvent.closeConn 0]

/-- Checks that every `exec` event is immediately followed by a `commit`
on the same connection. -/
def noDanglingExec : List CEvent → Bool
  | [] => true
  | CEvent.exec cid _ :: rest =>
      match rest with
      | CEvent.commit cid' :: _ => (cid == cid') && noDanglingExec rest
      | _ => false
  | _ :: rest => noDanglingExec rest

/-! ### Instance construction (`SQLite.__init__`)

In Python, the default expression of `def __init__(self, file=files.create_temp_file())`
is evaluated exactly once, when the `class SQLite` body is executed, and the
resulting value is reused by every construction that omits `file`.  The
temp-file factory is modelled as a counter-fresh name supply. -/

/-- Modelled from the spec: `files.create_temp_file()`, a temp-file factory
returning a fresh path and the advanced supply state. -/
def create_temp_file (s : Nat) : String × Nat :=
  ("parsons_tmp_" ++ toString s, s + 1)

/-- The class object: holds the default-argument cell of `__init__`. -/
structure SQLiteClassDef where
  defaultFile : String
deriving DecidableEq

/-- Executing the `class SQLite` body: the default expression runs once,
here, against the temp-file supply. -/
def defineSQLiteClass (s : Nat) : SQLiteClassDef × Nat :=
  ({ defaultFile := (create_temp_file s).1 }, (create_temp_file s).2)

structure SQLiteInstance where
  file : String
deriving DecidableEq

/-- Embedding of `SQLite.__init__(self, file=<default cell>)`: a pure function of the
class object; it does not touch the temp-file supply. -/
def SQLite_init (cls : SQLiteClassDef) (file : Option String) : SQLiteInstance :=
  { file := file.getD cls.defaultFile }

/-! ### Concrete cursor semantics used by counterexamples -/

/-- A cursor whose statement returns a result set with a `name` column and
zero data rows (what `sqlite3` reports for a `SELECT` on an empty table). -/
def semZeroRows : String → StmtResult :=
  fun _ => { description := some ["name"], rows := [] }

/-- A cursor whose statement returns no result set (e.g. an `INSERT`). -/
def semNoRows : String → StmtResult :=
  fun _ => { description := none, rows := [] }

/-- A concrete five-row, one-column input table. -/
def fiveTbl : PTable :=
  { columns := ["a"],
    rows := [[Value.vint 1], [Value.vint 2], [Value.vint 3], [Value.vint 4], [Value.vint 5]] }

/-- A trivial type-widening collaborator (keeps the current type). -/
def dtKeep : Value → Option String → Option String := fun _ t => t

/-- A concrete two-column input table. -/
def twoColTbl : PTable :=
  { columns := ["a", "b"],
    rows := [[Value.vint 1, Value.vtext "x"], [Value.vint 2, Value.vnull]] }

/-! ## Helper lemmas -/

theorem pySplitChar_ne_nil (sep : Char) (l : List Char) : pySplitChar sep l ≠ [] := by
  cases l with
  | nil => simp [pySplitChar]
  | cons c rest =>
    unfold pySplitChar
    split
    · simp
    · split <;> simp

theorem pySplitChar_cons_of_ne (sep c : Char) (rest : List Char) (h : ¬ c = sep) :
    ∃ h1 t, pySplitChar sep (c :: rest) = (c :: h1) :: t := by
  unfold pySplitChar
  rw [if_neg h]
  cases hr : pySplitChar sep rest with
  | nil => exact ⟨[], [], rfl⟩
  | cons a t => exact ⟨a, t, rfl⟩

theorem pyStripChars_id (l : List Char) (h1 : ∀ c, l.head? = some c → c.isWhitespace = false)
    (h2 : ∀ c, l.getLast? = some c → c.isWhitespace = false) :
    pyStripChars l = l := by
  unfold pyStripChars
  have e1 : l.dropWhile Char.isWhitespace = l := by
    cases hl : l with
    | nil => rfl
    | cons c rest =>
      have := h1 c (by rw [hl]; rfl)
      simp [List.dropWhile_cons, this]
  rw [e1]
  have e2 : l.reverse.dropWhile Char.isWhitespace = l.reverse := by
    cases hr : l.reverse with
    | nil => rfl
    | cons c rest =>
      have hlast : l.getLast? = some c := by
        rw [← List.head?_reverse, hr]; rfl
      have := h2 c hlast
      simp [List.dropWhile_cons, this]
  rw [e2, List.reverse_reverse]

theorem existsQuerySql_data (name : String) :
    (existsQuerySql name).data.head? = some 'S'
    ∧ (existsQuerySql name).data.getLast? = some (Char.ofNat 39) := by
  unfold existsQuerySql squote
  refine ⟨?_, ?_⟩
  · simp only [String.data_append, List.head?_append]
    rfl
  · simp [String.data_append, List.getLast?_append]
    rw [← List.cons_append]
    exact List.getLast?_concat _

theorem splitStatements_existsQuery_ne_nil (name : String) :
    splitStatements (existsQuerySql name) ≠ [] := by
  obtain ⟨hhead, hlast⟩ := existsQuerySql_data name
  unfold splitStatements
  rw [pyStripChars_id _ (fun c hc => by rw [hhead] at hc; cases hc; decide)
      (fun c hc => by rw [hlast] at hc; cases hc; decide)]
  cases hd : (existsQuerySql name).data with
  | nil => rw [hd] at hhead; cases hhead
  | cons c rest =>
    have hc : c = 'S' := by rw [hd] at hhead; cases hhead; rfl
    obtain ⟨h1, t, heq⟩ := pySplitChar_cons_of_ne (Char.ofNat 59) c rest
      (by rw [hc]; decide)
    rw [heq]
    have hlen : (String.mk (c :: h1)).length = h1.length + 1 := rfl
    simp [List.filter_cons, hlen]

theorem lastStmtResult_const (cat : List MasterRow) (name : String) :
    lastStmtResult (fun _ => masterSem cat name) (existsQuerySql name) =
      masterSem cat name := by
  unfold lastStmtResult
  cases hg : (splitStatements (existsQuerySql name)).getLast? with
  | none =>
    exact absurd (List.getLast?_eq_none_iff.mp hg) (splitStatements_existsQuery_ne_nil name)
  | some s => rfl

/-! ## Claims -/

/-- C1, counterexample: a query whose final statement has result columns but
zero data rows (what `sqlite3` reports for a `SELECT` on an empty table) does
not return the `None` signal: it creates a spill file and returns an empty
lazy table.  This refutes the claim that every zero-row query returns `None`
with no spill file. -/
theorem query_zero_rows_returns_table :
    (lastStmtResult semZeroRows "SELECT name FROM t").rows = []
    ∧ (query_with_connection semZeroRows "SELECT name FROM t" none true).2 ≠ none
    ∧ (query_with_connection semZeroRows "SELECT name FROM t" none true).2 =
        some { header := ["name"], dataRows := [] }
    ∧ QEvent.createSpill ∈
        (query_with_connection semZeroRows "SELECT name FROM t" none true).1 := by
  decide

/-- C1 (amended): `query_with_connection` returns the `None` signal exactly
when the cursor ends with no result columns (no description), and it creates
a spill file exactly when it does not return `None`.  A zero-row `SELECT`
still has a description, so it yields an empty lazy table instead. -/
theorem query_none_iff_no_result_columns (sem : String → StmtResult) (sql : String)
    (params : Option (List Value)) (cflag : Bool) :
    ((query_with_connection sem sql params cflag).2 = none ↔
      (lastStmtResult sem sql).description = none)
    ∧ ((query_with_connection sem sql params cflag).2 = none ↔
      QEvent.createSpill ∉ (query_with_connection sem sql params cflag).1) := by
  unfold query_with_connection
  cases h : (lastStmtResult sem sql).description with
  | none =>
    constructor
    · simp [h]
    · simp [h, List.mem_flatMap]
  | some cols =>
    constructor
    · simp [h]
    · simp [h]

/-- C2: the `commit` argument of `query_with_connection` is ignored: the code
calls `connection.commit()` unconditionally after each executed statement,
so even with `commit=False` every statement is committed immediately (one
commit per nonzero-length fragment).  The splitting itself (split on `;`,
skip zero-length fragments, execute in order) behaves as documented. -/
theorem commit_issued_despite_commit_false :
    ((query_with_connection semNoRows "INSERT INTO t VALUES (1)" none false).1).count
        QEvent.commit = 1
    ∧ ((query_with_connection semNoRows
        "INSERT INTO a VALUES (1); INSERT INTO b VALUES (2);" none false).1).count
        QEvent.commit = 2
    ∧ splitStatements "INSERT INTO a VALUES (1); INSERT INTO b VALUES (2);" =
        ["INSERT INTO a VALUES (1)", " INSERT INTO b VALUES (2)"]
    ∧ ((query_with_connection semNoRows
        "INSERT INTO a VALUES (1); INSERT INTO b VALUES (2);" none false).1).filterMap
        (fun e => match e with | QEvent.execute s => some s | _ => none) =
        ["INSERT INTO a VALUES (1)", " INSERT INTO b VALUES (2)"] := by
  decide

/-- C3, counterexample: when the body of the `connection()` scope raises a
database error, the scope exits normally — the generator-based context
manager catches `sqlite3.Error`, rolls back, and does not re-raise, so the
error is swallowed rather than propagated to the caller. -/
theorem db_error_swallowed :
    (connectionScope BodyOutcome.dbError).2 = ScopeExit.normal
    ∧ ¬ (connectionScope BodyOutcome.dbError).2 = ScopeExit.raisedDb := by
  decide

/-- C3 (amended): the `connection()` scope rolls back on a database error but
then suppresses it (the scope exits normally); the handle is closed
unconditionally, last, on every exit path; non-database errors are not
suppressed and no rollback happens for them or on success. -/
theorem connection_scope_behavior :
    (∀ b, (connectionScope b).1.getLast? = some ConnEvent.closeConn)
    ∧ ConnEvent.rollback ∈ (connectionScope BodyOutcome.dbError).1
    ∧ (connectionScope BodyOutcome.dbError).2 = ScopeExit.normal
    ∧ ConnEvent.rollback ∉ (connectionScope BodyOutcome.ok).1
    ∧ ConnEvent.rollback ∉ (connectionScope BodyOutcome.otherError).1
    ∧ (connectionScope BodyOutcome.otherError).2 = ScopeExit.raisedOther
    ∧ (connectionScope BodyOutcome.ok).2 = ScopeExit.normal := by
  refine ⟨fun b => ?_, by decide, by decide, by decide, by decide, by decide, by decide⟩
  cases b <;> rfl

/-- C5, counterexample: a catalog row can match the case-insensitive `LIKE`
lookup while `table_exists` still returns `false`: with a table named `T`
in the catalog, `table_exists("t")` finds the matching row `T` but then
compares it to `t` with case-sensitive Python `==` and answers `false`. -/
theorem table_exists_misses_matching_row :
    masterLookup [{ name := "T", rowType := "table" }] "t" = ["T"]
    ∧ table_exists [{ name := "T", rowType := "table" }] "t" = false := by
  decide

/-- C5 (amended): `table_exists` runs the case-insensitive `LIKE` catalog
lookup and returns `true` exactly when the name of the first matched row is
exactly (case-sensitively) equal to the queried name — not merely when some
matching row exists.  In particular it returns `false` when no row matches. -/
theorem table_exists_iff_head (cat : List MasterRow) (name : String) :
    table_exists cat name = true ↔ (masterLookup cat name).head? = some name := by
  have hq : (query_with_connection (fun _ => masterSem cat name)
      (existsQuerySql name) none true).2 =
      some { header := ["name"],
             dataRows := (masterLookup cat name).map (fun n => [Value.vtext n]) } := by
    unfold query_with_connection
    rw [lastStmtResult_const]
    rfl
  unfold table_exists
  rw [hq]
  cases hm : masterLookup cat name with
  | nil => simp [SpillTable.first]
  | cons n rest => simp [SpillTable.first]

/-- C4: `_create_table_precheck` raises exactly on an invalid `if_exists`
value (before issuing anything, before even the existence lookup) or on
`fail` with an existing table; among non-raising runs the returned signal is
truthy ("needs creation") exactly when the table does not exist or
`if_exists` is `drop`; `drop` on an existing table issues `DROP TABLE` on
the caller connection after the catalog lookup; `append` on an existing
table returns the falsy `None` and issues nothing beyond the lookup. -/
theorem create_table_precheck_spec (cat : List MasterRow) (name ie : String) :
    ((∃ e, (_create_table_precheck cat name ie).result = .error e) ↔
      (¬ (ie = "fail" ∨ ie = "append" ∨ ie = "drop")
        ∨ (ie = "fail" ∧ table_exists cat name = true)))
    ∧ (¬ (ie = "fail" ∨ ie = "append" ∨ ie = "drop") →
        (_create_table_precheck cat name ie).issued = []
        ∧ (_create_table_precheck cat name ie).events = [])
    ∧ (∀ sig, (_create_table_precheck cat name ie).result = .ok sig →
        (optionTruthy sig = true ↔ (table_exists cat name = false ∨ ie = "drop")))
    ∧ (ie = "drop" → table_exists cat name = true →
        (_create_table_precheck cat name ie).issued =
          [(1, existsQuerySql name), (0, "DROP TABLE " ++ name)])
    ∧ (ie = "append" → table_exists cat name = true →
        (_create_table_precheck cat name ie).result = .ok none
        ∧ (_create_table_precheck cat name ie).issued = [(1, existsQuerySql name)]) := by
  by_cases hv : ie = "fail" ∨ ie = "append" ∨ ie = "drop"
  · by_cases he : table_exists cat name = true
    · rcases hv with hf | ha | hd
      · subst hf
        simp [_create_table_precheck, he, optionTruthy]
      · subst ha
        simp [_create_table_precheck, he, optionTruthy]
      · subst hd
        simp [_create_table_precheck, he, optionTruthy]
    · have he' : table_exists cat name = false := by
        cases h : table_exists cat name
        · rfl
        · exact absurd h he
      rcases hv with hf | ha | hd
      · subst hf
        simp [_create_table_precheck, he', optionTruthy]
      · subst ha
        simp [_create_table_precheck, he', optionTruthy]
      · subst hd
        simp [_create_table_precheck, he', optionTruthy]
  · push_neg at hv
    obtain ⟨h1, h2, h3⟩ := hv
    simp [_create_table_precheck, h1, h2, h3, optionTruthy]

/-- C4 witness: `create_table_precheck_spec` applied to a catalog holding
table `t` with `if_exists="drop"`: the precheck issues the lookup then the
`DROP TABLE` statement. -/
theorem create_table_precheck_spec_witness :
    (_create_table_precheck [{ name := "t", rowType := "table" }] "t" "drop").issued =
      [(1, existsQuerySql "t"), (0, "DROP TABLE " ++ "t")] := by
  exact (create_table_precheck_spec [{ name := "t", rowType := "table" }] "t"
    "drop").2.2.2.1 rfl (by decide)

/-- C9: the default `file` argument of `SQLite.__init__` is evaluated exactly
once, when the class body executes: the temp-file supply advances once at
class definition, every default construction reuses the file created there,
and any two default-constructed instances are bound to the same file. -/
theorem default_file_shared (s0 : Nat) :
    (defineSQLiteClass s0).2 = s0 + 1
    ∧ (SQLite_init (defineSQLiteClass s0).1 none).file = (create_temp_file s0).1
    ∧ ∀ i j : SQLiteInstance, i = SQLite_init (defineSQLiteClass s0).1 none →
        j = SQLite_init (defineSQLiteClass s0).1 none → i.file = j.file := by
  refine ⟨rfl, rfl, ?_⟩
  intro i j hi hj
  rw [hi, hj]

theorem chunkFuel_of_le (c : Nat) (hc : 0 < c) :
    ∀ (f : Nat) (l : List α), l.length ≤ f → chunkFuel c f l = chunkFuel c l.length l := by
  intro f
  induction f using Nat.strong_induction_on with
  | _ f ih =>
    intro l hl
    cases l with
    | nil => cases f <;> rfl
    | cons x xs =>
      cases f with
      | zero => simp at hl
      | succ g =>
        have hg : xs.length ≤ g := by
          simpa using hl
        have hdrop : ((x :: xs).drop c).length ≤ g := by
          simp only [List.length_drop, List.length_cons]
          omega
        have hdrop2 : ((x :: xs).drop c).length ≤ xs.length := by
          simp only [List.length_drop, List.length_cons]
          omega
        show ((x :: xs).take c) :: chunkFuel c g ((x :: xs).drop c) =
          ((x :: xs).take c) :: chunkFuel c xs.length ((x :: xs).drop c)
        congr 1
        rw [ih g (by omega) _ hdrop, ih xs.length (by omega) _ hdrop2]

theorem chunkList_nil (c : Nat) : chunkList c ([] : List α) = [] := by
  unfold chunkList
  split <;> rfl

theorem chunkList_cons (c : Nat) (hc : 0 < c) (x : α) (xs : List α) :
    chunkList c (x :: xs) = ((x :: xs).take c) :: chunkList c ((x :: xs).drop c) := by
  have hc' : ¬ c = 0 := by omega
  unfold chunkList
  rw [if_neg hc', if_neg hc']
  show ((x :: xs).take c) :: chunkFuel c xs.length ((x :: xs).drop c) = _
  congr 1
  have hle : ((x :: xs).drop c).length ≤ xs.length := by
    simp only [List.length_drop, List.length_cons]
    omega
  exact chunkFuel_of_le c hc xs.length _ hle

theorem chunkList_flatten_le (c : Nat) (hc : 0 < c) :
    ∀ (n : Nat) (l : List α), l.length ≤ n → (chunkList c l).flatten = l := by
  intro n
  induction n with
  | zero =>
    intro l hl
    have : l = [] := List.eq_nil_of_length_eq_zero (by omega)
    subst this
    simp [chunkList_nil]
  | succ n ih =>
    intro l hl
    cases l with
    | nil => simp [chunkList_nil]
    | cons x xs =>
      rw [chunkList_cons c hc x xs, List.flatten_cons, ih _ ?_, List.take_append_drop]
      simp only [List.length_drop, List.length_cons]
      simp only [List.length_cons] at hl
      omega

theorem chunkList_flatten (c : Nat) (hc : 0 < c) (l : List α) :
    (chunkList c l).flatten = l :=
  chunkList_flatten_le c hc l.length l le_rfl

theorem chunkList_length_le (c : Nat) (hc : 0 < c) :
    ∀ (n : Nat) (l : List α), l.length ≤ n →
      (chunkList c l).length = (l.length + c - 1) / c := by
  intro n
  induction n with
  | zero =>
    intro l hl
    have : l = [] := List.eq_nil_of_length_eq_zero (by omega)
    subst this
    simp [chunkList_nil, Nat.div_eq_of_lt (by omega : c - 1 < c)]
  | succ n ih =>
    intro l hl
    cases l with
    | nil => simp [chunkList_nil, Nat.div_eq_of_lt (by omega : c - 1 < c)]
    | cons x xs =>
      rw [chunkList_cons c hc x xs, List.length_cons, ih _ ?_]
      · simp only [List.length_drop, List.length_cons]
        rcases le_or_lt (xs.length + 1) c with hmc | hmc
        · have h1 : xs.length + 1 - c = 0 := by omega
          rw [h1, Nat.div_eq_of_lt (by omega : 0 + c - 1 < c)]
          have h2 : xs.length + 1 + c - 1 = xs.length + c := by omega
          rw [h2, Nat.add_div_right _ hc, Nat.div_eq_of_lt (by omega : xs.length < c)]
        · have h2 : xs.length + 1 - c + c - 1 = xs.length := by omega
          have h3 : xs.length + 1 + c - 1 = xs.length + c := by omega
          rw [h2, h3, Nat.add_div_right _ hc]
      · simp only [List.length_drop, List.length_cons]
        simp only [List.length_cons] at hl
        omega

theorem chunkList_length (c : Nat) (hc : 0 < c) (l : List α) :
    (chunkList c l).length = (l.length + c - 1) / c :=
  chunkList_length_le c hc l.length l le_rfl

theorem chunkList_sizes_le (c : Nat) (hc : 0 < c) :
    ∀ (n : Nat) (l : List α), l.length ≤ n →
      ∀ ch ∈ chunkList c l, 0 < ch.length ∧ ch.length ≤ c := by
  intro n
  induction n with
  | zero =>
    intro l hl
    have : l = [] := List.eq_nil_of_length_eq_zero (by omega)
    subst this
    simp [chunkList_nil]
  | succ n ih =>
    intro l hl ch hch
    cases l with
    | nil => simp [chunkList_nil] at hch
    | cons x xs =>
      rw [chunkList_cons c hc x xs] at hch
      rcases List.mem_cons.mp hch with h | h
      · subst h
        simp only [List.length_take, List.length_cons]
        omega
      · refine ih _ ?_ ch h
        simp only [List.length_drop, List.length_cons]
        simp only [List.length_cons] at hl
        omega

theorem chunkList_ne_nil_of_ne_nil (c : Nat) (hc : 0 < c) (l : List α) (hl : l ≠ []) :
    chunkList c l ≠ [] := by
  cases l with
  | nil => exact absurd rfl hl
  | cons x xs => rw [chunkList_cons c hc x xs]; simp

theorem chunkList_dropLast_le (c : Nat) (hc : 0 < c) :
    ∀ (n : Nat) (l : List α), l.length ≤ n →
      ∀ ch ∈ (chunkList c l).dropLast, ch.length = c := by
  intro n
  induction n with
  | zero =>
    intro l hl
    have : l = [] := List.eq_nil_of_length_eq_zero (by omega)
    subst this
    simp [chunkList_nil]
  | succ n ih =>
    intro l hl ch hch
    cases l with
    | nil => simp [chunkList_nil] at hch
    | cons x xs =>
      rw [chunkList_cons c hc x xs] at hch
      cases hr : chunkList c ((x :: xs).drop c) with
      | nil => rw [hr] at hch; simp at hch
      | cons r rs =>
        rw [hr, List.dropLast_cons₂] at hch
        have hdropne : (x :: xs).drop c ≠ [] := by
          intro hcon
          rw [hcon, chunkList_nil] at hr
          cases hr
        have hlen : c ≤ xs.length + 1 := by
          by_contra hcon
          refine hdropne (List.drop_of_length_le ?_)
          simp only [List.length_cons]
          omega
        rcases List.mem_cons.mp hch with h | h
        · subst h
          simp only [List.length_take, List.length_cons]
          omega
        · rw [← hr] at h
          refine ih _ ?_ ch h
          simp only [List.length_drop, List.length_cons]
          simp only [List.length_cons] at hl
          omega

/-- C7: `copy` on an input table with zero rows is a pure no-op: no events
(no connection opened, no statement executed, no commit), nothing issued,
no inserts built, and the call returns successfully. -/
theorem copy_empty_table_noop (fc : List String → List String)
    (dt : Value → Option String → Option String) (cat : List MasterRow)
    (tbl : PTable) (name ie : String) (c : Nat) (h : tbl.rows.length = 0) :
    copy fc dt cat tbl name ie c =
      { events := [], issued := [], inserts := [], result := .ok () } := by
  unfold copy
  rw [if_pos h]

/-- C7 witness: `copy_empty_table_noop` applied to a concrete empty table. -/
theorem copy_empty_table_noop_witness :
    copy id dtKeep [] { columns := ["a"], rows := [] } "t" "fail" 1000 =
      { events := [], issued := [], inserts := [], result := .ok () } :=
  copy_empty_table_noop id dtKeep [] { columns := ["a"], rows := [] } "t" "fail" 1000 rfl

/-- C6: on a successful run over a non-empty table with positive chunk size,
`copy` builds exactly one `INSERT` statement per row chunk: the insert list
is the chunk list mapped through `_insert_statement`, its length is
`ceil(n / c)`, the chunks partition the rows in order, every chunk is
non-empty with at most `c` rows, every chunk but the last has exactly `c`
rows, and every insert is issued on the single copy connection (id `0`). -/
theorem copy_chunk_inserts (fc : List String → List String)
    (dt : Value → Option String → Option String) (cat : List MasterRow)
    (tbl : PTable) (name ie : String) (c : Nat)
    (hc : 0 < c) (hn : tbl.rows.length ≠ 0)
    (hok : (copy fc dt cat tbl name ie c).result = .ok ()) :
    ∃ cols2, (copy fc dt cat tbl name ie c).inserts =
        (chunkList c tbl.rows).map (fun ch =>
          _insert_statement { columns := cols2, rows := ch } name)
    ∧ (copy fc dt cat tbl name ie c).inserts.length = (tbl.rows.length + c - 1) / c
    ∧ (chunkList c tbl.rows).flatten = tbl.rows
    ∧ (∀ ch ∈ chunkList c tbl.rows, 0 < ch.length ∧ ch.length ≤ c)
    ∧ (∀ ch ∈ (chunkList c tbl.rows).dropLast, ch.length = c)
    ∧ (∀ s ∈ (copy fc dt cat tbl name ie c).inserts,
        (0, s) ∈ (copy fc dt cat tbl name ie c).issued) := by
  unfold copy at hok ⊢
  rw [if_neg hn] at hok ⊢
  cases hpre : (_create_table_precheck cat name ie).result with
  | error e =>
    rw [hpre] at hok
    simp at hok
  | ok sig =>
    by_cases hsig : optionTruthy sig = true
    · refine ⟨fc tbl.columns, ?_, ?_, chunkList_flatten c hc tbl.rows,
        chunkList_sizes_le c hc tbl.rows.length tbl.rows le_rfl,
        chunkList_dropLast_le c hc tbl.rows.length tbl.rows le_rfl, ?_⟩
      · simp only [hsig, if_true]
        rfl
      · simp only [hsig, if_true, List.length_map]
        exact chunkList_length c hc tbl.rows
      · intro s hs
        simp only [hsig, if_true] at hs ⊢
        simp only [List.mem_append]
        right
        exact List.mem_map.mpr ⟨s, hs, rfl⟩
    · have hsig' : optionTruthy sig = false := by
        cases h : optionTruthy sig
        · rfl
        · exact absurd h hsig
      refine ⟨tbl.columns, ?_, ?_, chunkList_flatten c hc tbl.rows,
        chunkList_sizes_le c hc tbl.rows.length tbl.rows le_rfl,
        chunkList_dropLast_le c hc tbl.rows.length tbl.rows le_rfl, ?_⟩
      · simp only [hsig', if_false]
        rfl
      · simp only [hsig', if_false, List.length_map]
        exact chunkList_length c hc tbl.rows
      · intro s hs
        simp only [hsig', if_false] at hs ⊢
        simp only [List.mem_append]
        right
        exact List.mem_map.mpr ⟨s, hs, rfl⟩

/-- C6 witness: `copy_chunk_inserts` on the five-row table with chunk size 2
(and the 2,2,1 chunk sizes computed directly). -/
theorem copy_chunk_inserts_witness :
    (copy id dtKeep [] fiveTbl "t" "fail" 2).inserts.length = (5 + 2 - 1) / 2
    ∧ (chunkList 2 fiveTbl.rows).flatten = fiveTbl.rows
    ∧ (chunkList 2 fiveTbl.rows).map List.length = [2, 2, 1] := by
  obtain ⟨cols2, h1, h2, h3, h4, h5, h6⟩ :=
    copy_chunk_inserts id dtKeep [] fiveTbl "t" "fail" 2 (by decide) (by decide) rfl
  exact ⟨h2, h3, by decide⟩

theorem head?_append_left {α} (l1 l2 : List α) (c : α) (h : l1.head? = some c) :
    (l1 ++ l2).head? = some c := by
  cases l1 with
  | nil => cases h
  | cons x xs => cases h; rfl

theorem pySplitChar_append_sep (sep : Char) :
    ∀ (body : List Char), sep ∉ body →
      pySplitChar sep (body ++ [sep]) = [body, []] := by
  intro body
  induction body with
  | nil =>
    intro _
    show pySplitChar sep [sep] = [[], []]
    unfold pySplitChar
    rw [if_pos rfl]
    rfl
  | cons c rest ih =>
    intro h
    have hc : ¬ c = sep := fun hcc => h (by rw [hcc]; exact List.mem_cons_self _ _)
    show pySplitChar sep (c :: (rest ++ [sep])) = [c :: rest, []]
    unfold pySplitChar
    rw [if_neg hc, ih (fun hm => h (List.mem_cons_of_mem _ hm))]

theorem noSemi_pyJoin (sep : String) (hsep : Char.ofNat 59 ∉ sep.data) :
    ∀ (parts : List String), (∀ p ∈ parts, Char.ofNat 59 ∉ p.data) →
      Char.ofNat 59 ∉ (pyJoin sep parts).data := by
  intro parts
  induction parts with
  | nil =>
    intro _
    show Char.ofNat 59 ∉ ("" : String).data
    simp
  | cons x xs ih =>
    intro h
    cases xs with
    | nil => exact h x (List.mem_cons_self _ _)
    | cons y ys =>
      show Char.ofNat 59 ∉ (x ++ sep ++ pyJoin sep (y :: ys)).data
      simp only [String.data_append, List.mem_append]
      push_neg
      exact ⟨⟨h x (List.mem_cons_self _ _), hsep⟩,
        ih (fun p hp => h p (List.mem_cons_of_mem _ hp))⟩

theorem splitStatements_insert_one (tbl : PTable) (name : String)
    (hname : Char.ofNat 59 ∉ name.data)
    (hcols : ∀ col ∈ tbl.columns, Char.ofNat 59 ∉ col.data)
    (hvals : ∀ v ∈ insertValues tbl, Char.ofNat 59 ∉ v.data) :
    (splitStatements (_insert_statement tbl name)).length = 1 := by
  have hb : Char.ofNat 59 ∉ ("INSERT INTO " ++ name
      ++ insertIndent ++ "(" ++ pyJoin "," tbl.columns ++ ")"
      ++ insertIndent ++ "VALUES " ++ pyJoin "," (insertValues tbl)).data := by
    intro hmem
    simp only [String.data_append, List.mem_append] at hmem
    rcases hmem with ((((((((h | h) | h) | h) | h) | h) | h) | h) | h)
    · exact absurd h (by decide)
    · exact hname h
    · exact absurd h (by decide)
    · exact absurd h (by decide)
    · exact noSemi_pyJoin "," (by decide) tbl.columns hcols h
    · exact absurd h (by decide)
    · exact absurd h (by decide)
    · exact absurd h (by decide)
    · exact noSemi_pyJoin "," (by decide) (insertValues tbl) hvals h
  have hdata : (_insert_statement tbl name).data =
      ("INSERT INTO " ++ name
        ++ insertIndent ++ "(" ++ pyJoin "," tbl.columns ++ ")"
        ++ insertIndent ++ "VALUES " ++ pyJoin "," (insertValues tbl)).data
      ++ [Char.ofNat 59] := by
    show (("INSERT INTO " ++ name
        ++ insertIndent ++ "(" ++ pyJoin "," tbl.columns ++ ")"
        ++ insertIndent ++ "VALUES " ++ pyJoin "," (insertValues tbl)) ++ ";").data = _
    rw [String.data_append]
  have hlen : ("INSERT INTO " ++ name
      ++ insertIndent ++ "(" ++ pyJoin "," tbl.columns ++ ")"
      ++ insertIndent ++ "VALUES " ++ pyJoin "," (insertValues tbl)).data.length ≠ 0 := by
    simp only [String.data_append, List.length_append, List.length_cons, List.length_nil]
    omega
  unfold splitStatements
  rw [hdata]
  rw [pyStripChars_id _
    (fun c hc => by
      simp only [String.data_append, List.cons_append, List.head?_cons] at hc
      cases hc
      decide)
    (fun c hc => by
      rw [List.getLast?_concat] at hc
      cases hc
      decide)]
  rw [pySplitChar_append_sep _ _ hb]
  simp only [List.map_cons, List.map_nil, List.filter]
  have h1 : ((String.mk (("INSERT INTO " ++ name
      ++ insertIndent ++ "(" ++ pyJoin "," tbl.columns ++ ")"
      ++ insertIndent ++ "VALUES " ++ pyJoin "," (insertValues tbl)).data)).length != 0)
      = true := bne_iff_ne.mpr hlen
  rw [h1]
  rfl

/-- C8: `_insert_statement` renders exactly one `INSERT INTO name (cols)
VALUES ...;` statement: the output decomposes into the insert header, the
comma-joined column list, and the comma-joined values; for single-column
tables each value is rendered unwrapped inside parentheses, otherwise each
row is rendered as its tuple; and (for inputs whose rendered parts contain
no `;`) the rendered text is a single statement after splitting. -/
theorem insert_statement_form (tbl : PTable) (name : String) :
    _insert_statement tbl name =
      "INSERT INTO " ++ name ++ insertIndent ++ "(" ++ pyJoin "," tbl.columns ++ ")"
        ++ insertIndent ++ "VALUES " ++ pyJoin "," (insertValues tbl) ++ ";"
    ∧ (tbl.columns.length = 1 →
        insertValues tbl =
          tbl.rows.map (fun r => "(" ++ (r.getD 0 Value.vnull).pyStr ++ ")"))
    ∧ (tbl.columns.length ≠ 1 → insertValues tbl = tbl.rows.map pyTupleStr)
    ∧ ((Char.ofNat 59 ∉ name.data) → (∀ col ∈ tbl.columns, Char.ofNat 59 ∉ col.data) →
        (∀ v ∈ insertValues tbl, Char.ofNat 59 ∉ v.data) →
        (splitStatements (_insert_statement tbl name)).length = 1) := by
  refine ⟨rfl, ?_, ?_, splitStatements_insert_one tbl name⟩
  · intro h
    unfold insertValues
    rw [if_pos h]
  · intro h
    unfold insertValues
    rw [if_neg h]

/-- C8 witness: `insert_statement_form` applied to a concrete two-column
table: the rows render as tuples, and the rendered sql holds exactly one
statement. -/
theorem insert_statement_form_witness :
    insertValues twoColTbl = twoColTbl.rows.map pyTupleStr
    ∧ (splitStatements (_insert_statement twoColTbl "tt")).length = 1 := by
  obtain ⟨h1, h2, h3, h4⟩ := insert_statement_form twoColTbl "tt"
  exact ⟨h3 (by decide), h4 (by decide) (by decide) (by decide)⟩

theorem ndE_nonexec_cons (e : CEvent) (l : List CEvent)
    (he : ∀ cid s, e ≠ CEvent.exec cid s) :
    noDanglingExec (e :: l) = noDanglingExec l := by
  cases e with
  | exec cid s => exact absurd rfl (he cid s)
  | openConn cid => rfl
  | commit cid => rfl
  | rollback cid => rfl
  | closeConn cid => rfl

theorem ndE_pairTrace (frags : List (Nat × String)) (tail : List CEvent) :
    noDanglingExec (pairTrace frags ++ tail) = noDanglingExec tail := by
  induction frags with
  | nil => rfl
  | cons p rest ih =>
    show noDanglingExec
      (CEvent.exec p.1 p.2 :: CEvent.commit p.1 :: (pairTrace rest ++ tail)) = _
    simp only [noDanglingExec, beq_self_eq_true, Bool.true_and]
    exact ih

theorem ndE_fragTraceList (cid : Nat) (xs : List String) (tail : List CEvent) :
    noDanglingExec (xs.flatMap (fragTrace cid) ++ tail) = noDanglingExec tail := by
  induction xs with
  | nil => rfl
  | cons x rest ih =>
    rw [List.flatMap_cons, List.append_assoc]
    show noDanglingExec (pairTrace _ ++ _) = _
    rw [ndE_pairTrace]
    exact ih

theorem ndE_existsEvents (name : String) (tail : List CEvent) :
    noDanglingExec (([CEvent.openConn 1] ++ fragTrace 1 (existsQuerySql name)
      ++ [CEvent.closeConn 1]) ++ tail) = noDanglingExec tail := by
  unfold fragTrace
  generalize (splitStatements (existsQuerySql name)).map (fun s => ((1 : Nat), s)) = fr
  rw [List.append_assoc, List.append_assoc]
  show noDanglingExec (CEvent.openConn 1 ::
    (pairTrace fr ++ ([CEvent.closeConn 1] ++ tail))) = _
  rw [ndE_nonexec_cons _ _ (fun cid s h => CEvent.noConfusion h)]
  rw [ndE_pairTrace]
  show noDanglingExec (CEvent.closeConn 1 :: tail) = _
  rw [ndE_nonexec_cons _ _ (fun cid s h => CEvent.noConfusion h)]

theorem ndE_precheck_append (cat : List MasterRow) (name ie : String)
    (tail : List CEvent) :
    noDanglingExec ((_create_table_precheck cat name ie).events ++ tail) =
      noDanglingExec tail := by
  unfold _create_table_precheck
  by_cases hv : ie = "fail" ∨ ie = "append" ∨ ie = "drop"
  · rw [if_neg (not_not_intro hv)]
    by_cases he : table_exists cat name = true
    · rw [if_pos he]
      by_cases hf : ie = "fail"
      · rw [if_pos hf]
        exact ndE_existsEvents name tail
      · rw [if_neg hf]
        by_cases hd : ie = "drop"
        · rw [if_pos hd]
          rw [List.append_assoc]
          rw [ndE_existsEvents]
          show noDanglingExec (pairTrace _ ++ _) = _
          rw [ndE_pairTrace]
        · rw [if_neg hd]
          exact ndE_existsEvents name tail
    · rw [if_neg he]
      exact ndE_existsEvents name tail
  · rw [if_pos hv]
    rfl

theorem foldl_pairTrace (frags : List (Nat × String)) :
    ∀ acc : List (Nat × String),
      (pairTrace frags).foldl applyCEvent ([], acc) = ([], acc ++ frags) := by
  induction frags with
  | nil => intro acc; simp [pairTrace]
  | cons p rest ih =>
    intro acc
    show List.foldl applyCEvent ([], acc)
      (CEvent.exec p.1 p.2 :: CEvent.commit p.1 :: pairTrace rest) = _
    rw [List.foldl_cons, List.foldl_cons]
    have h1 : applyCEvent ([], acc) (CEvent.exec p.1 p.2) = ([(p.1, p.2)], acc) := by
      simp [applyCEvent]
    have h2 : applyCEvent ([(p.1, p.2)], acc) (CEvent.commit p.1) =
        ([], acc ++ [(p.1, p.2)]) := by
      simp [applyCEvent]
    rw [h1, h2, ih]
    simp

theorem committedOf_failTrace (frags : List (Nat × String)) (k : Nat) :
    committedOf (failTrace frags k) = frags.take k := by
  unfold committedOf failTrace
  rw [List.foldl_append, List.foldl_append, List.foldl_append]
  have h0 : List.foldl applyCEvent (([], []) :
      List (Nat × String) × List (Nat × String)) [CEvent.openConn 0] = ([], []) := rfl
  rw [h0, foldl_pairTrace]
  cases hk : frags.get? k with
  | none => simp [applyCEvent]
  | some p => simp [applyCEvent]

/-- C10: `copy` is not atomic across its statements: in every run, each
executed statement fragment is immediately followed by a commit on its own
connection; consequently, in a run that fails while executing the fragment
after the first `k` fragments, exactly those `k` already-executed fragments
(including the `CREATE TABLE` and the chunk `INSERT`s among them) remain
durably committed — the closing rollback removes nothing committed. -/
theorem copy_not_atomic (fc : List String → List String)
    (dt : Value → Option String → Option String) (cat : List MasterRow)
    (tbl : PTable) (name ie : String) (c : Nat) :
    noDanglingExec (copy fc dt cat tbl name ie c).events = true
    ∧ ∀ k, committedOf (failTrace (issuedFrags (copy fc dt cat tbl name ie c).issued) k)
        = (issuedFrags (copy fc dt cat tbl name ie c).issued).take k := by
  constructor
  · unfold copy
    by_cases h0 : tbl.rows.length = 0
    · rw [if_pos h0]
      rfl
    · rw [if_neg h0]
      cases hpre : (_create_table_precheck cat name ie).result with
      | error e =>
        show noDanglingExec ([CEvent.openConn 0]
          ++ (_create_table_precheck cat name ie).events ++ [CEvent.closeConn 0]) = true
        rw [List.append_assoc]
        show noDanglingExec (CEvent.openConn 0 ::
          ((_create_table_precheck cat name ie).events ++ [CEvent.closeConn 0])) = true
        rw [ndE_nonexec_cons _ _ (fun cid s h => CEvent.noConfusion h)]
        rw [ndE_precheck_append]
        rfl
      | ok sig =>
        simp only [List.append_assoc]
        show noDanglingExec (CEvent.openConn 0 ::
          ((_create_table_precheck cat name ie).events ++ _)) = true
        rw [ndE_nonexec_cons _ _ (fun cid s h => CEvent.noConfusion h)]
        rw [ndE_precheck_append]
        rw [ndE_fragTraceList]
        rw [ndE_fragTraceList]
        rfl
  · intro k
    exact committedOf_failTrace _ k

/-- C9 witness: instantiation of `default_file_shared` at supply state `0`
and two concrete default-constructed instances. -/
theorem default_file_shared_witness :
    (defineSQLiteClass 0).2 = 0 + 1
    ∧ (SQLite_init (defineSQLiteClass 0).1 none).file = (create_temp_file 0).1
    ∧ (SQLite_init (defineSQLiteClass 0).1 none).file =
        (SQLite_init (defineSQLiteClass 0).1 none).file := by
  obtain ⟨a, b, c⟩ := default_file_shared 0
  exact ⟨a, b, c _ _ rfl rfl⟩

end Parsons
